import Mathlib

/-! Movement and collision core of the two pacman prototypes.

Two programs are embedded:

* `Grid`  : `src/pacman.cpp`, the grid variant (integer positions, one
  `ENTITY_SIZE` step per key press, centre-distance collision);
* `Cont`  : `src/unnamed/part_000` ("pacman 2.cpp"), the continuous variant
  (`double` positions, per-tick speed increments, rectangle collision).

C++ `int` is a 32-bit two's-complement integer: every `int` operation of the
source is followed by `wrapInt`.  `rand()` returns a non-negative `int`, so a
draw is a `Nat`.  `double` positions are exact rationals.
-/

/-- Result of a 32-bit `int` operation: the mathematical value reduced into
`[-2^31, 2^31)`. -/
def wrapInt (v : Int) : Int := (v + 2147483648) % 4294967296 - 2147483648

/-- The test `std::sqrt(n) <= h` for `int` operands `n` and `h`.  `n` is promoted
to `double` exactly; IEEE-754 square root is correctly rounded, hence monotone
and exact on perfect squares, so on `int` operands the comparison holds
exactly when `n` is non-negative (a negative `n` gives NaN, and every
comparison with NaN is false), `h` is non-negative and `n <= h*h`. -/
def sqrtLe (n h : Int) : Bool := decide (0 ≤ n ∧ 0 ≤ h ∧ n ≤ h * h)

/-- Event type tag `SDL_QUIT` of SDL2 (`SDL_events.h`). -/
def SDL_QUIT : Nat := 0x100
/-- Event type tag `SDL_KEYDOWN` of SDL2 (`SDL_events.h`). -/
def SDL_KEYDOWN : Nat := 0x300
/-- Key code `SDLK_w` of SDL2: the character code of `w`. -/
def SDLK_w : Int := 119
/-- Key code `SDLK_s` of SDL2: the character code of `s`. -/
def SDLK_s : Int := 115
/-- Key code `SDLK_a` of SDL2: the character code of `a`. -/
def SDLK_a : Int := 97
/-- Key code `SDLK_d` of SDL2: the character code of `d`. -/
def SDLK_d : Int := 100

/-- The two fields of `SDL_Event` the programs read: `e.type` and
`e.key.keysym.sym`. -/
structure SDL_Event where
  type : Nat
  sym : Int
deriving DecidableEq, Repr

namespace Grid

def SCREEN_WIDTH : Int := 640
def SCREEN_HEIGHT : Int := 480
def ENTITY_SIZE : Int := 16
def NUM_NPCS : Nat := 4
def HITBOX_SIZE : Int := 40

/-- The data of `class Entity`: `int x, y`.  `Player` and `NPC` add no field. -/
structure Entity where
  x : Int
  y : Int
deriving DecidableEq, Repr

/-- Method `Player::handleInput(SDL_Event &e)`. -/
def Player.handleInput (p : Entity) (e : SDL_Event) : Entity :=
  if e.type = SDL_KEYDOWN then
    if e.sym = SDLK_w then
      if p.y > 0 then { p with y := wrapInt (p.y - ENTITY_SIZE) } else p
    else if e.sym = SDLK_s then
      if p.y < wrapInt (SCREEN_HEIGHT - ENTITY_SIZE) then
        { p with y := wrapInt (p.y + ENTITY_SIZE) } else p
    else if e.sym = SDLK_a then
      if p.x > 0 then { p with x := wrapInt (p.x - ENTITY_SIZE) } else p
    else if e.sym = SDLK_d then
      if p.x < wrapInt (SCREEN_WIDTH - ENTITY_SIZE) then
        { p with x := wrapInt (p.x + ENTITY_SIZE) } else p
    else p
  else p

/-- Method `NPC::isCollision(int x1, int y1, int x2, int y2)`. -/
def NPC.isCollision (x1 y1 x2 y2 : Int) : Bool :=
  let centerX1 := wrapInt (x1 + Int.tdiv ENTITY_SIZE 2)
  let centerY1 := wrapInt (y1 + Int.tdiv ENTITY_SIZE 2)
  let centerX2 := wrapInt (x2 + Int.tdiv ENTITY_SIZE 2)
  let centerY2 := wrapInt (y2 + Int.tdiv ENTITY_SIZE 2)
  let dx := wrapInt (centerX1 - centerX2)
  let dy := wrapInt (centerY1 - centerY2)
  sqrtLe (wrapInt (wrapInt (dx * dx) + wrapInt (dy * dy))) HITBOX_SIZE

/-- The loop of `NPC::canMove` over the static vector `NPC::npcs`, from index
`j` on.  The vector holds one pointer per NPC, all distinct, so `npc != this`
is the comparison of the index `j` with the index `self` of `this`. -/
def NPC.canMoveLoop (self : Nat) (newX newY : Int) : List Entity → Nat → Bool
  | [], _ => true
  | npc :: rest, j =>
    if j ≠ self ∧ NPC.isCollision newX newY npc.x npc.y = true then false
    else NPC.canMoveLoop self newX newY rest (j + 1)

/-- Method `NPC::canMove(int newX, int newY)` called on the NPC at index `self` of
`NPC::npcs`. -/
def NPC.canMove (npcs : List Entity) (self : Nat) (newX newY : Int) : Bool :=
  if newX < 0 ∨ newX ≥ SCREEN_WIDTH ∨ newY < 0 ∨ newY ≥ SCREEN_HEIGHT then false
  else NPC.canMoveLoop self newX newY npcs 0

/-- The destination `(newX, newY)` computed by `NPC::move` from the position
of `this` and the value `r` returned by `rand()`. -/
def NPC.proposed (n : Entity) (r : Nat) : Int × Int :=
  let direction := r % 4
  if direction = 0 then (n.x, wrapInt (n.y - ENTITY_SIZE))
  else if direction = 1 then (n.x, wrapInt (n.y + ENTITY_SIZE))
  else if direction = 2 then (wrapInt (n.x - ENTITY_SIZE), n.y)
  else if direction = 3 then (wrapInt (n.x + ENTITY_SIZE), n.y)
  else (n.x, n.y)

/-- Method `NPC::move()` called on the NPC at index `self` of `npcs`, with `r` the
value returned by `rand()`: the vector after the call. -/
def NPC.move (npcs : List Entity) (self : Nat) (r : Nat) : List Entity :=
  match npcs[self]? with
  | none => npcs
  | some n =>
    let new := NPC.proposed n r
    if NPC.canMove npcs self new.1 new.2 = true then
      npcs.set self { x := new.1, y := new.2 }
    else npcs

/-- The fields of `class Game` the update reads and writes.  `Game::npcs` and
`NPC::npcs` hold the same pointers in the same order: one list. -/
structure Game where
  player : Entity
  npcs : List Entity
  gameRunning : Bool
  counter : Int
deriving DecidableEq, Repr

/-- The state built by `Game::Game()`. -/
def Game.init : Game :=
  { player := { x := Int.tdiv SCREEN_WIDTH 2, y := Int.tdiv SCREEN_HEIGHT 2 }
    npcs := (List.range NUM_NPCS).map fun i =>
      { x := wrapInt (Int.tdiv SCREEN_WIDTH 4 + wrapInt (i * ENTITY_SIZE))
        y := wrapInt (Int.tdiv SCREEN_HEIGHT 4 + wrapInt (i * ENTITY_SIZE)) }
    gameRunning := true
    counter := 0 }

/-- The loop `for (auto npc : npcs) npc->move();` where the NPC at index `i`
draws `draws i` from `rand()`. -/
def moveAll (draws : Nat → Nat) (npcs : List Entity) : List Entity :=
  (List.range npcs.length).foldl (fun acc i => NPC.move acc i (draws i)) npcs

/-- Method `Game::updateGame()`. -/
def updateGame (draws : Nat → Nat) (g : Game) : Game :=
  let npcs := if Int.tmod g.counter 10 = 0 then moveAll draws g.npcs else g.npcs
  let hit := npcs.any fun npc => NPC.isCollision g.player.x g.player.y npc.x npc.y
  { player := g.player
    npcs := npcs
    gameRunning := if hit then false else g.gameRunning
    counter := wrapInt (g.counter + 1) }

/-- The inner loop `while (SDL_PollEvent(&e) != 0)` of `Game::run` over the
events pending in the queue. -/
def drain (g : Game) : List SDL_Event → Game
  | [] => g
  | e :: es =>
    drain (if e.type = SDL_QUIT then { g with gameRunning := false }
      else { g with player := Player.handleInput g.player e }) es

/-- What one iteration of the outer loop reads from outside: the events
pending when it polls and the values `rand()` returns. -/
structure Frame where
  events : List SDL_Event
  draws : Nat → Nat

/-- The body of `while (gameRunning)` in `Game::run` (rendering and the delay
change no field). -/
def iteration (f : Frame) (g : Game) : Game :=
  updateGame f.draws (drain g f.events)

/-- The loop `while (gameRunning)` of `Game::run`; iteration `i` reads
`frames i`.  `none` when `fuel` iterations did not end the loop. -/
def run : Nat → (Nat → Frame) → Game → Option Game
  | 0, _, g => if g.gameRunning then none else some g
  | fuel + 1, frames, g =>
    if g.gameRunning then run fuel (fun i => frames (i + 1)) (iteration (frames 0) g)
    else some g

/-- States the program can be in: the constructed state, and the state after
any event handled by the player, after a quit event, or after any
`updateGame` tick. -/
inductive Reachable : Game → Prop
  | init : Reachable Game.init
  | input (g : Game) (e : SDL_Event) :
      Reachable g → Reachable { g with player := Player.handleInput g.player e }
  | quit (g : Game) : Reachable g → Reachable { g with gameRunning := false }
  | tick (g : Game) (draws : Nat → Nat) : Reachable g → Reachable (updateGame draws g)

/-- The bounds of the data model: `0 ≤ x ≤ W - size` and `0 ≤ y ≤ H - size`. -/
def InBounds (e : Entity) : Prop :=
  0 ≤ e.x ∧ e.x ≤ SCREEN_WIDTH - ENTITY_SIZE ∧ 0 ≤ e.y ∧ e.y ≤ SCREEN_HEIGHT - ENTITY_SIZE

instance (e : Entity) : Decidable (InBounds e) := by
  unfold InBounds; infer_instance

end Grid

namespace Cont

def SCREEN_WIDTH : Int := 640
def SCREEN_HEIGHT : Int := 480
def ENTITY_SIZE : Int := 32
def PLAYER_SPEED : ℚ := 1 / 10
def NPC_SPEED : ℚ := 1 / 10

/-- Conversion of a `double` to `int`, as done implicitly when a `double` is
passed for an `int` parameter: the fractional part is discarded (rounding
toward zero). -/
def toInt (q : ℚ) : Int := Int.tdiv q.num q.den

/-- The data of `class Entity`: `double x, y`. -/
structure Entity where
  x : ℚ
  y : ℚ
deriving DecidableEq

/-- The four entries of the array returned by `SDL_GetKeyboardState` that
`Player::move` reads (non-zero = held). -/
structure Keys where
  up : Bool
  down : Bool
  left : Bool
  right : Bool
deriving DecidableEq, Repr

/-- The first four `if`s of `Player::move`: the speed deltas of the held keys. -/
def Player.deltas (k : Keys) (p : Entity) : Entity :=
  let y := if k.up then p.y - PLAYER_SPEED else p.y
  let y := if k.down then y + PLAYER_SPEED else y
  let x := if k.left then p.x - PLAYER_SPEED else p.x
  let x := if k.right then x + PLAYER_SPEED else x
  { x := x, y := y }

/-- The last four `if`s of `Player::move` and of `NPC::move`, on the position
`(x, y)`: "ensure the entity stays within the screen bounds". -/
def stayInBounds (x y : ℚ) : ℚ × ℚ :=
  let x := if x < 0 then 0 else x
  let x := if x > ((wrapInt (SCREEN_WIDTH - ENTITY_SIZE) : Int) : ℚ) then
    ((wrapInt (SCREEN_WIDTH - ENTITY_SIZE) : Int) : ℚ) else x
  let y := if y < 0 then 0 else y
  let y := if y > ((wrapInt (SCREEN_HEIGHT - ENTITY_SIZE) : Int) : ℚ) then
    ((wrapInt (SCREEN_HEIGHT - ENTITY_SIZE) : Int) : ℚ) else y
  (x, y)

/-- Method `Player::move()` with the keyboard state `k`. -/
def Player.move (k : Keys) (p : Entity) : Entity :=
  let q := Player.deltas k p
  let r := stayInBounds q.x q.y
  { x := r.1, y := r.2 }

/-- The data of `class NPC`: the position and the wander state. -/
structure NPC where
  x : ℚ
  y : ℚ
  direction : Int
  steps : Int
deriving DecidableEq

/-- The wander part of `NPC::move`: the re-draw under `if (steps <= 0)`, with
`r1` and `r2` the values the two calls of `rand()` return there. -/
def NPC.redraw (r1 r2 : Nat) (n : NPC) : NPC :=
  if n.steps ≤ 0 then
    { n with direction := ((r1 % 4 : Nat) : Int)
             steps := wrapInt (((r2 % 1000 : Nat) : Int) + 100) }
  else n

/-- The `switch (direction)` of `NPC::move` followed by `steps--`: the speed
delta of the current direction. -/
def NPC.deltas (n : NPC) : NPC :=
  let y := if n.direction = 0 then n.y - NPC_SPEED
    else if n.direction = 1 then n.y + NPC_SPEED else n.y
  let x := if n.direction = 2 then n.x - NPC_SPEED
    else if n.direction = 3 then n.x + NPC_SPEED else n.x
  { x := x, y := y, direction := n.direction, steps := wrapInt (n.steps - 1) }

/-- Method `NPC::move()`; `r1` and `r2` are what `rand()` returns if it is called. -/
def NPC.move (r1 r2 : Nat) (n : NPC) : NPC :=
  let m := NPC.deltas (NPC.redraw r1 r2 n)
  let r := stayInBounds m.x m.y
  { m with x := r.1, y := r.2 }

/-- Method `NPC::isCollision(int x1, int y1, int x2, int y2)`. -/
def NPC.isCollision (x1 y1 x2 y2 : Int) : Bool :=
  decide (x1 < wrapInt (x2 + ENTITY_SIZE)) && decide (wrapInt (x1 + ENTITY_SIZE) > x2) &&
  decide (y1 < wrapInt (y2 + ENTITY_SIZE)) && decide (wrapInt (y1 + ENTITY_SIZE) > y2)

/-- The call `NPC::isCollision(player.x, player.y, npc->x, npc->y)` of
`Game::run`: the four `double` arguments are converted to `int`. -/
def collisionCheck (player : Entity) (npc : NPC) : Bool :=
  NPC.isCollision (toInt player.x) (toInt player.y) (toInt npc.x) (toInt npc.y)

/-- The fields of `class Game` the loop reads and writes. -/
structure Game where
  gameRunning : Bool
  player : Entity
  npcs : List NPC
  counter : Int
deriving DecidableEq

/-- The state built by `Game::Game()`; `draws k` is what call number `k` of
`rand()` returns (three calls per NPC: direction, x, y). -/
def Game.init (draws : Nat → Nat) : Game :=
  { gameRunning := true
    player := { x := ((Int.tdiv SCREEN_WIDTH 2 : Int) : ℚ), y := ((Int.tdiv SCREEN_HEIGHT 2 : Int) : ℚ) }
    npcs := (List.range 5).map fun i =>
      { direction := ((draws (3 * i) % 4 : Nat) : Int)
        steps := 0
        x := ((Int.tmod (draws (3 * i + 1)) SCREEN_WIDTH : Int) : ℚ)
        y := ((Int.tmod (draws (3 * i + 2)) SCREEN_HEIGHT : Int) : ℚ) }
    counter := 0 }

/-- The inner loop `while (SDL_PollEvent(&e) != 0)` of `Game::run`: only a
quit event has an effect. -/
def drain (g : Game) : List SDL_Event → Game
  | [] => g
  | e :: es => drain (if e.type = SDL_QUIT then { g with gameRunning := false } else g) es

/-- What one iteration of the outer loop reads from outside: the pending
events, the keyboard state, and for the NPC at index `i` the two values
`rand()` returns if that NPC re-draws. -/
structure Frame where
  events : List SDL_Event
  keys : Keys
  draws : Nat → Nat × Nat

/-- The loop `for (auto npc : npcs) npc->move();`. -/
def moveAll (draws : Nat → Nat × Nat) (npcs : List NPC) : List NPC :=
  npcs.mapIdx fun i n => NPC.move (draws i).1 (draws i).2 n

/-- The body of `while (gameRunning)` in `Game::run` (rendering changes no
field). -/
def iteration (f : Frame) (g : Game) : Game :=
  let g := drain g f.events
  let player := Player.move f.keys g.player
  let npcs := moveAll f.draws g.npcs
  let hit := npcs.any fun npc => collisionCheck player npc
  { gameRunning := if hit then false else g.gameRunning
    player := player
    npcs := npcs
    counter := wrapInt (g.counter + 1) }

/-- The loop `while (gameRunning)` of `Game::run`; iteration `i` reads
`frames i`.  `none` when `fuel` iterations did not end the loop. -/
def run : Nat → (Nat → Frame) → Game → Option Game
  | 0, _, g => if g.gameRunning then none else some g
  | fuel + 1, frames, g =>
    if g.gameRunning then run fuel (fun i => frames (i + 1)) (iteration (frames 0) g)
    else some g

/-- The bounds policy in the words of the specification:
`clamp(x, y) = (min(max(x, 0), W - size), min(max(y, 0), H - size))`. -/
def clamp (x y : ℚ) : ℚ × ℚ :=
  (min (max x 0) (640 - 32), min (max y 0) (480 - 32))

/-- Repetition of `NPC::move()`: `k` calls in a row, call number `i` reading
`draws i`. -/
def NPC.moveN (draws : Nat → Nat × Nat) : Nat → NPC → NPC
  | 0, n => n
  | k + 1, n => NPC.move (draws k).1 (draws k).2 (NPC.moveN draws k n)

end Cont

/-! Shared lemmas. -/

theorem wrapInt_eq_self (v : Int) (hlo : -2147483648 ≤ v) (hhi : v < 2147483648) :
    wrapInt v = v := by
  unfold wrapInt
  omega

theorem sqrtLe_iff_real (n h : Int) :
    sqrtLe n h = true ↔ 0 ≤ n ∧ Real.sqrt (n : ℝ) ≤ (h : ℝ) := by
  unfold sqrtLe
  rw [decide_eq_true_iff, Real.sqrt_le_iff]
  constructor
  · rintro ⟨h0, h1, h2⟩
    refine ⟨h0, by exact_mod_cast h1, ?_⟩
    rw [pow_two]
    exact_mod_cast h2
  · rintro ⟨h0, h1, h2⟩
    refine ⟨h0, by exact_mod_cast h1, ?_⟩
    rw [pow_two] at h2
    exact_mod_cast h2

namespace Grid

theorem isCollision_eq_of_inWorld (x1 y1 x2 y2 : Int)
    (hx1 : 0 ≤ x1 ∧ x1 ≤ 640) (hy1 : 0 ≤ y1 ∧ y1 ≤ 480)
    (hx2 : 0 ≤ x2 ∧ x2 ≤ 640) (hy2 : 0 ≤ y2 ∧ y2 ≤ 480) :
    NPC.isCollision x1 y1 x2 y2
      = sqrtLe ((x1 - x2) * (x1 - x2) + (y1 - y2) * (y1 - y2)) 40 := by
  have h8 : Int.tdiv ENTITY_SIZE 2 = 8 := by decide
  have ex1 : wrapInt (x1 + 8) = x1 + 8 := wrapInt_eq_self _ (by omega) (by omega)
  have ey1 : wrapInt (y1 + 8) = y1 + 8 := wrapInt_eq_self _ (by omega) (by omega)
  have ex2 : wrapInt (x2 + 8) = x2 + 8 := wrapInt_eq_self _ (by omega) (by omega)
  have ey2 : wrapInt (y2 + 8) = y2 + 8 := wrapInt_eq_self _ (by omega) (by omega)
  have dx : wrapInt (x1 + 8 - (x2 + 8)) = x1 - x2 := by
    rw [wrapInt_eq_self _ (by omega) (by omega)]; ring
  have dy : wrapInt (y1 + 8 - (y2 + 8)) = y1 - y2 := by
    rw [wrapInt_eq_self _ (by omega) (by omega)]; ring
  have sx0 : 0 ≤ (x1 - x2) * (x1 - x2) := mul_self_nonneg _
  have sy0 : 0 ≤ (y1 - y2) * (y1 - y2) := mul_self_nonneg _
  have sx1 : (x1 - x2) * (x1 - x2) ≤ 409600 := by nlinarith
  have sy1 : (y1 - y2) * (y1 - y2) ≤ 230400 := by nlinarith
  have wx : wrapInt ((x1 - x2) * (x1 - x2)) = (x1 - x2) * (x1 - x2) :=
    wrapInt_eq_self _ (by omega) (by omega)
  have wy : wrapInt ((y1 - y2) * (y1 - y2)) = (y1 - y2) * (y1 - y2) :=
    wrapInt_eq_self _ (by omega) (by omega)
  have ws : wrapInt ((x1 - x2) * (x1 - x2) + (y1 - y2) * (y1 - y2))
      = (x1 - x2) * (x1 - x2) + (y1 - y2) * (y1 - y2) :=
    wrapInt_eq_self _ (by omega) (by omega)
  simp only [NPC.isCollision, h8, ex1, ey1, ex2, ey2, dx, dy, wx, wy, ws, HITBOX_SIZE]

/-- C3: inside the 640x480 world `NPC::isCollision` of the grid variant is true
exactly when the Euclidean distance between the two centres `(x+8, y+8)` is at
most `HITBOX_SIZE = 40`, that is exactly when
`(x1-x2)^2 + (y1-y2)^2 <= 1600`; it is true at distance exactly 40 and false
at every larger distance. -/
theorem isCollision_iff_center_distance (x1 y1 x2 y2 : Int)
    (hx1 : 0 ≤ x1 ∧ x1 ≤ SCREEN_WIDTH) (hy1 : 0 ≤ y1 ∧ y1 ≤ SCREEN_HEIGHT)
    (hx2 : 0 ≤ x2 ∧ x2 ≤ SCREEN_WIDTH) (hy2 : 0 ≤ y2 ∧ y2 ≤ SCREEN_HEIGHT) :
    (NPC.isCollision x1 y1 x2 y2 = true ↔
      Real.sqrt ((((x1 + 8 : Int) : ℝ) - ((x2 + 8 : Int) : ℝ)) ^ 2
        + (((y1 + 8 : Int) : ℝ) - ((y2 + 8 : Int) : ℝ)) ^ 2) ≤ ((HITBOX_SIZE : Int) : ℝ)) ∧
    (NPC.isCollision x1 y1 x2 y2 = true ↔ (x1 - x2) ^ 2 + (y1 - y2) ^ 2 ≤ 1600) ∧
    (Real.sqrt ((((x1 + 8 : Int) : ℝ) - ((x2 + 8 : Int) : ℝ)) ^ 2
        + (((y1 + 8 : Int) : ℝ) - ((y2 + 8 : Int) : ℝ)) ^ 2) = 40 →
      NPC.isCollision x1 y1 x2 y2 = true) ∧
    (Real.sqrt ((((x1 + 8 : Int) : ℝ) - ((x2 + 8 : Int) : ℝ)) ^ 2
        + (((y1 + 8 : Int) : ℝ) - ((y2 + 8 : Int) : ℝ)) ^ 2) > 40 →
      NPC.isCollision x1 y1 x2 y2 = false) := by
  simp only [SCREEN_WIDTH, SCREEN_HEIGHT] at hx1 hy1 hx2 hy2
  have hcode := isCollision_eq_of_inWorld x1 y1 x2 y2 hx1 hy1 hx2 hy2
  have hcast : ((((x1 + 8 : Int) : ℝ) - ((x2 + 8 : Int) : ℝ)) ^ 2
        + (((y1 + 8 : Int) : ℝ) - ((y2 + 8 : Int) : ℝ)) ^ 2)
      = (((x1 - x2) * (x1 - x2) + (y1 - y2) * (y1 - y2) : Int) : ℝ) := by
    push_cast; ring
  have hnn : 0 ≤ (x1 - x2) * (x1 - x2) + (y1 - y2) * (y1 - y2) :=
    add_nonneg (mul_self_nonneg _) (mul_self_nonneg _)
  have hreal : NPC.isCollision x1 y1 x2 y2 = true ↔
      Real.sqrt ((((x1 + 8 : Int) : ℝ) - ((x2 + 8 : Int) : ℝ)) ^ 2
        + (((y1 + 8 : Int) : ℝ) - ((y2 + 8 : Int) : ℝ)) ^ 2) ≤ ((40 : Int) : ℝ) := by
    rw [hcode, sqrtLe_iff_real, hcast]
    exact ⟨fun h => h.2, fun h => ⟨hnn, h⟩⟩
  refine ⟨?_, ?_, ?_, ?_⟩
  · simpa only [HITBOX_SIZE] using hreal
  · rw [hcode]
    unfold sqrtLe
    rw [decide_eq_true_iff]
    constructor
    · rintro ⟨_, _, h⟩
      nlinarith
    · intro h
      refine ⟨hnn, by norm_num, ?_⟩
      nlinarith
  · intro h
    rw [hreal, h]
    norm_num
  · intro h
    cases hc : NPC.isCollision x1 y1 x2 y2
    · rfl
    · have hle := hreal.mp hc
      have h40 : ((40 : Int) : ℝ) = 40 := by norm_num
      rw [h40] at hle
      exact absurd hle (not_le.mpr h)

/-- Witness of C3: the centres of `(0,0)` and `(24,32)` are exactly 40 apart. -/
theorem isCollision_iff_center_distance_witness :
    NPC.isCollision 0 0 24 32 = true ↔ ((0 : Int) - 24) ^ 2 + ((0 : Int) - 32) ^ 2 ≤ 1600 :=
  (isCollision_iff_center_distance 0 0 24 32 (by decide) (by decide) (by decide)
    (by decide)).2.1

/-- C5: from an in-bounds, grid-aligned position a key-down of W, S, A or D
moves the player one `ENTITY_SIZE` step in that direction when the
destination is in bounds and leaves it in place otherwise; every other event
leaves the position unchanged. -/
theorem handleInput_grid_step (p : Entity) (e : SDL_Event) (hb : InBounds p)
    (hx : ENTITY_SIZE ∣ p.x) (hy : ENTITY_SIZE ∣ p.y) :
    (e.type = SDL_KEYDOWN → e.sym = SDLK_w →
      Player.handleInput p e
        = if InBounds ⟨p.x, p.y - ENTITY_SIZE⟩ then ⟨p.x, p.y - ENTITY_SIZE⟩ else p) ∧
    (e.type = SDL_KEYDOWN → e.sym = SDLK_s →
      Player.handleInput p e
        = if InBounds ⟨p.x, p.y + ENTITY_SIZE⟩ then ⟨p.x, p.y + ENTITY_SIZE⟩ else p) ∧
    (e.type = SDL_KEYDOWN → e.sym = SDLK_a →
      Player.handleInput p e
        = if InBounds ⟨p.x - ENTITY_SIZE, p.y⟩ then ⟨p.x - ENTITY_SIZE, p.y⟩ else p) ∧
    (e.type = SDL_KEYDOWN → e.sym = SDLK_d →
      Player.handleInput p e
        = if InBounds ⟨p.x + ENTITY_SIZE, p.y⟩ then ⟨p.x + ENTITY_SIZE, p.y⟩ else p) ∧
    (¬ (e.type = SDL_KEYDOWN ∧
        (e.sym = SDLK_w ∨ e.sym = SDLK_s ∨ e.sym = SDLK_a ∨ e.sym = SDLK_d)) →
      Player.handleInput p e = p) := by
  obtain ⟨px, py⟩ := p
  simp only [InBounds, SCREEN_WIDTH, SCREEN_HEIGHT, ENTITY_SIZE] at hb hx hy ⊢
  obtain ⟨hb1, hb2, hb3, hb4⟩ := hb
  have w1 : wrapInt (480 - 16) = 464 := by decide
  have w2 : wrapInt (640 - 16) = 624 := by decide
  refine ⟨?_, ?_, ?_, ?_, ?_⟩
  · intro ht hs
    simp only [Player.handleInput, ht, hs, if_true, ENTITY_SIZE]
    by_cases h : py > 0
    · rw [if_pos h, wrapInt_eq_self _ (by omega) (by omega), if_pos (by omega)]
    · rw [if_neg h, if_neg (by omega)]
  · intro ht hs
    have ne1 : SDLK_s ≠ SDLK_w := by decide
    simp only [Player.handleInput, ht, hs, if_true, ENTITY_SIZE, SCREEN_HEIGHT, w1, if_neg ne1]
    by_cases h : py < 464
    · rw [if_pos h, wrapInt_eq_self _ (by omega) (by omega), if_pos (by omega)]
    · rw [if_neg h, if_neg (by omega)]
  · intro ht hs
    have ne1 : SDLK_a ≠ SDLK_w := by decide
    have ne2 : SDLK_a ≠ SDLK_s := by decide
    simp only [Player.handleInput, ht, hs, if_true, ENTITY_SIZE, if_neg ne1, if_neg ne2]
    by_cases h : px > 0
    · rw [if_pos h, wrapInt_eq_self _ (by omega) (by omega), if_pos (by omega)]
    · rw [if_neg h, if_neg (by omega)]
  · intro ht hs
    have ne1 : SDLK_d ≠ SDLK_w := by decide
    have ne2 : SDLK_d ≠ SDLK_s := by decide
    have ne3 : SDLK_d ≠ SDLK_a := by decide
    simp only [Player.handleInput, ht, hs, if_true, ENTITY_SIZE, SCREEN_WIDTH, w2,
      if_neg ne1, if_neg ne2, if_neg ne3]
    by_cases h : px < 624
    · rw [if_pos h, wrapInt_eq_self _ (by omega) (by omega), if_pos (by omega)]
    · rw [if_neg h, if_neg (by omega)]
  · intro hne
    unfold Player.handleInput
    by_cases ht : e.type = SDL_KEYDOWN
    · have hs : ¬ (e.sym = SDLK_w ∨ e.sym = SDLK_s ∨ e.sym = SDLK_a ∨ e.sym = SDLK_d) :=
        fun h => hne ⟨ht, h⟩
      simp only [not_or] at hs
      rw [if_pos ht, if_neg hs.1, if_neg hs.2.1, if_neg hs.2.2.1, if_neg hs.2.2.2]
    · rw [if_neg ht]

/-- Witness of C5: the player at the world centre `(320, 240)` pressing D. -/
theorem handleInput_grid_step_witness :
    Player.handleInput ⟨320, 240⟩ ⟨SDL_KEYDOWN, SDLK_d⟩ = ⟨336, 240⟩ :=
  ((handleInput_grid_step ⟨320, 240⟩ ⟨SDL_KEYDOWN, SDLK_d⟩ (by decide) (by decide)
    (by decide)).2.2.2.1 rfl rfl).trans (by decide)

theorem canMoveLoop_false_of_collision (self : Nat) (newX newY : Int) :
    ∀ (l : List Entity) (j0 k : Nat) (o : Entity), l[k]? = some o → j0 + k ≠ self →
      NPC.isCollision newX newY o.x o.y = true →
      NPC.canMoveLoop self newX newY l j0 = false := by
  intro l
  induction l with
  | nil => intro j0 k o h; simp at h
  | cons a rest ih =>
    intro j0 k o h hne hc
    cases k with
    | zero =>
      simp only [List.getElem?_cons_zero, Option.some.injEq] at h
      subst h
      have hne0 : j0 ≠ self := by simpa using hne
      simp only [NPC.canMoveLoop, if_pos (And.intro hne0 hc)]
    | succ k =>
      simp only [List.getElem?_cons_succ] at h
      unfold NPC.canMoveLoop
      split
      · rfl
      · exact ih (j0 + 1) k o h (by omega) hc

theorem canMoveLoop_set_self (self : Nat) (newX newY : Int) (m : Entity) :
    ∀ (l : List Entity) (j0 k : Nat), j0 + k = self →
      NPC.canMoveLoop self newX newY (l.set k m) j0 = NPC.canMoveLoop self newX newY l j0 := by
  intro l
  induction l with
  | nil => intro j0 k _; simp
  | cons a rest ih =>
    intro j0 k hk
    cases k with
    | zero =>
      have h0 : j0 = self := by simpa using hk
      have hn : ∀ c : Prop, ¬ (j0 ≠ self ∧ c) := fun c h => h.1 h0
      simp only [List.set_cons_zero, NPC.canMoveLoop, if_neg (hn _)]
    | succ k =>
      simp only [List.set_cons_succ, NPC.canMoveLoop]
      rw [ih (j0 + 1) k (by omega)]

theorem proposed_mod (n : Entity) (r : Nat) : NPC.proposed n r = NPC.proposed n (r % 4) := by
  simp only [NPC.proposed, Nat.mod_mod]

theorem move_mod (npcs : List Entity) (i r : Nat) :
    NPC.move npcs i r = NPC.move npcs i (r % 4) := by
  simp only [NPC.move, ← proposed_mod]

theorem init_npcs_eq :
    Game.init.npcs = [⟨160, 120⟩, ⟨176, 136⟩, ⟨192, 152⟩, ⟨208, 168⟩] := by decide

theorem init_move_fixed (i r : Nat) : NPC.move Game.init.npcs i r = Game.init.npcs := by
  rw [move_mod]
  have hr : r % 4 < 4 := Nat.mod_lt _ (by decide)
  generalize r % 4 = d at hr
  by_cases hi : i < 4
  · interval_cases i <;> interval_cases d <;> decide
  · have hlen : Game.init.npcs.length ≤ i := by
      rw [init_npcs_eq]; simp only [List.length_cons, List.length_nil]; omega
    simp only [NPC.move, List.getElem?_eq_none hlen]

theorem foldl_fixed {α β : Type} (f : α → β → α) (a : α) (hf : ∀ b, f a b = a) :
    ∀ l : List β, l.foldl f a = a := by
  intro l
  induction l with
  | nil => rfl
  | cons b rest ih => rw [List.foldl_cons, hf, ih]

theorem init_moveAll_fixed (draws : Nat → Nat) : moveAll draws Game.init.npcs = Game.init.npcs :=
  foldl_fixed _ _ (fun i => init_move_fixed i (draws i)) _

theorem updateGame_npcs_fixed (draws : Nat → Nat) (g : Game) (h : g.npcs = Game.init.npcs) :
    (updateGame draws g).npcs = Game.init.npcs := by
  simp only [updateGame, h, init_moveAll_fixed, ite_self]

theorem reachable_npcs_fixed (g : Game) (h : Reachable g) : g.npcs = Game.init.npcs := by
  induction h with
  | init => rfl
  | input g e _ ih => exact ih
  | quit g _ ih => exact ih
  | tick g draws _ ih => exact updateGame_npcs_fixed draws g ih

theorem handleInput_preserves (p : Entity) (e : SDL_Event)
    (h : InBounds p ∧ (16 : Int) ∣ p.x ∧ (16 : Int) ∣ p.y) :
    InBounds (Player.handleInput p e) ∧ (16 : Int) ∣ (Player.handleInput p e).x ∧
      (16 : Int) ∣ (Player.handleInput p e).y := by
  obtain ⟨px, py⟩ := p
  simp only [InBounds, SCREEN_WIDTH, SCREEN_HEIGHT, ENTITY_SIZE] at h
  simp only [InBounds, Player.handleInput, SCREEN_WIDTH, SCREEN_HEIGHT, ENTITY_SIZE, wrapInt]
  split_ifs <;> simp only [] <;> omega

theorem reachable_player_aligned (g : Game) (h : Reachable g) :
    InBounds g.player ∧ (16 : Int) ∣ g.player.x ∧ (16 : Int) ∣ g.player.y := by
  induction h with
  | init => decide
  | input g e _ ih => exact handleInput_preserves g.player e ih
  | quit g _ ih => exact ih
  | tick g draws _ ih => exact ih

/-- C1: in every state reachable from the constructed game by handled events
and `updateGame` ticks with any random directions, the player and every NPC
satisfy `0 <= x <= 624` and `0 <= y <= 464`. -/
theorem reachable_inBounds (g : Game) (h : Reachable g) :
    InBounds g.player ∧ ∀ n ∈ g.npcs, InBounds n := by
  refine ⟨(reachable_player_aligned g h).1, ?_⟩
  rw [reachable_npcs_fixed g h]
  decide

/-- Witness of C1: the state after the player pressed D and one tick passed. -/
theorem reachable_inBounds_witness :
    InBounds (updateGame (fun _ => 3)
        { Game.init with player := Player.handleInput Game.init.player ⟨SDL_KEYDOWN, SDLK_d⟩ }).player ∧
      ∀ n ∈ (updateGame (fun _ => 3)
        { Game.init with player := Player.handleInput Game.init.player ⟨SDL_KEYDOWN, SDLK_d⟩ }).npcs,
        InBounds n :=
  reachable_inBounds _ (Reachable.tick _ _ (Reachable.input _ _ Reachable.init))

/-- C6: a step of the NPC at index `i` whose destination is within the hitbox
radius of the current position of another NPC of the list is rejected and
the list is unchanged; the position stored at index `i` itself has no
influence on `canMove`, and an NPC alone in the list is stopped only by the
bounds guard. -/
theorem move_rejects_step_into_other_npc (npcs : List Entity) (i : Nat) (n : Entity) (r : Nat)
    (hi : npcs[i]? = some n) :
    ((∃ j o, j ≠ i ∧ npcs[j]? = some o ∧
        NPC.isCollision (NPC.proposed n r).1 (NPC.proposed n r).2 o.x o.y = true) →
      NPC.move npcs i r = npcs) ∧
    (∀ m newX newY, NPC.canMove (npcs.set i m) i newX newY = NPC.canMove npcs i newX newY) ∧
    (npcs = [n] → ∀ newX newY, NPC.canMove npcs i newX newY = true ↔
      ¬ (newX < 0 ∨ newX ≥ SCREEN_WIDTH ∨ newY < 0 ∨ newY ≥ SCREEN_HEIGHT)) := by
  refine ⟨?_, ?_, ?_⟩
  · rintro ⟨j, o, hji, hj, hc⟩
    have hloop := canMoveLoop_false_of_collision i (NPC.proposed n r).1 (NPC.proposed n r).2
      npcs 0 j o hj (by omega) hc
    have hcm : NPC.canMove npcs i (NPC.proposed n r).1 (NPC.proposed n r).2 = false := by
      unfold NPC.canMove
      split
      · rfl
      · exact hloop
    simp only [NPC.move, hi, hcm, Bool.false_eq_true, if_false]
  · intro m newX newY
    unfold NPC.canMove
    rw [canMoveLoop_set_self i newX newY m npcs 0 i (by omega)]
  · intro hn newX newY
    subst hn
    have h0 : i = 0 := by
      cases i with
      | zero => rfl
      | succ k => simp at hi
    subst h0
    unfold NPC.canMove
    split
    · rename_i hg
      simp [hg]
    · rename_i hg
      simp [hg, NPC.canMoveLoop]

/-- Witness of C6: the first NPC of the constructed game stepping right,
into the hitbox of the second. -/
theorem move_rejects_step_into_other_npc_witness :
    NPC.move [⟨160, 120⟩, ⟨176, 136⟩] 0 3 = [⟨160, 120⟩, ⟨176, 136⟩] :=
  (move_rejects_step_into_other_npc [⟨160, 120⟩, ⟨176, 136⟩] 0 ⟨160, 120⟩ 3 rfl).1
    ⟨1, ⟨176, 136⟩, by decide, rfl, by decide⟩

/-- C7 (refuted as stated): an NPC alone at the in-bounds position `(160, 456)`
that draws direction 1 (down) proposes `(160, 472)`, which violates
`y <= 464`; `canMove` accepts it and the NPC moves there. -/
theorem move_accepts_destination_below_bounds :
    InBounds ⟨160, 456⟩ ∧ NPC.proposed ⟨160, 456⟩ 1 = (160, 472) ∧
      ¬ InBounds ⟨160, 472⟩ ∧ NPC.canMove [⟨160, 456⟩] 0 160 472 = true ∧
      NPC.move [⟨160, 456⟩] 0 1 = [⟨160, 472⟩] := by
  decide

theorem move_eq_of_guard (npcs : List Entity) (i : Nat) (n : Entity) (r : Nat)
    (hi : npcs[i]? = some n)
    (hg : (NPC.proposed n r).1 < 0 ∨ (NPC.proposed n r).1 ≥ SCREEN_WIDTH ∨
      (NPC.proposed n r).2 < 0 ∨ (NPC.proposed n r).2 ≥ SCREEN_HEIGHT) :
    NPC.move npcs i r = npcs := by
  have hcm : NPC.canMove npcs i (NPC.proposed n r).1 (NPC.proposed n r).2 = false := by
    unfold NPC.canMove
    rw [if_pos hg]
  simp only [NPC.move, hi, hcm, Bool.false_eq_true, if_false]

theorem proposed_x_off_screen (n : Entity) (r : Nat) (hb : InBounds n)
    (hx : ENTITY_SIZE ∣ n.x)
    (hv : ¬ (0 ≤ (NPC.proposed n r).1 ∧ (NPC.proposed n r).1 ≤ SCREEN_WIDTH - ENTITY_SIZE)) :
    (NPC.proposed n r).1 < 0 ∨ (NPC.proposed n r).1 ≥ SCREEN_WIDTH := by
  obtain ⟨nx, ny⟩ := n
  simp only [InBounds, SCREEN_WIDTH, SCREEN_HEIGHT, ENTITY_SIZE] at hb hx
  simp only [NPC.proposed, SCREEN_WIDTH, ENTITY_SIZE, wrapInt] at hv ⊢
  split_ifs at hv ⊢ <;> simp only [] at hv ⊢ <;> omega

/-- C7 (amended): for an NPC at an in-bounds position, any list of NPCs and any
drawn direction, `NPC::move` rejects the step entirely, leaving every
position unchanged, whenever the destination violates `0 <= x' < 640` or
`0 <= y' < 480`; a call either changes nothing or puts the NPC exactly at the
destination; for an NPC whose `x` is a multiple of `ENTITY_SIZE` every
destination violating `0 <= x' <= 624` is rejected; and in every reachable
state of the game every step is rejected. -/
theorem move_rejects_destination_off_screen (npcs : List Entity) (i : Nat) (n : Entity)
    (r : Nat) (hi : npcs[i]? = some n) (hb : InBounds n) :
    ((NPC.proposed n r).1 < 0 ∨ (NPC.proposed n r).1 ≥ SCREEN_WIDTH ∨
        (NPC.proposed n r).2 < 0 ∨ (NPC.proposed n r).2 ≥ SCREEN_HEIGHT →
      NPC.move npcs i r = npcs) ∧
    (NPC.move npcs i r = npcs ∨
      NPC.move npcs i r = npcs.set i ⟨(NPC.proposed n r).1, (NPC.proposed n r).2⟩) ∧
    (ENTITY_SIZE ∣ n.x →
      ¬ (0 ≤ (NPC.proposed n r).1 ∧ (NPC.proposed n r).1 ≤ SCREEN_WIDTH - ENTITY_SIZE) →
      NPC.move npcs i r = npcs) ∧
    (∀ g, Reachable g → g.npcs = npcs → NPC.move npcs i r = npcs) := by
  refine ⟨move_eq_of_guard npcs i n r hi, ?_, ?_, ?_⟩
  · simp only [NPC.move, hi]
    split
    · exact Or.inr rfl
    · exact Or.inl rfl
  · intro hx hv
    rcases proposed_x_off_screen n r hb hx hv with h | h
    · exact move_eq_of_guard npcs i n r hi (Or.inl h)
    · exact move_eq_of_guard npcs i n r hi (Or.inr (Or.inl h))
  · intro g hg hn
    rw [← hn, reachable_npcs_fixed g hg]
    exact init_move_fixed i r

/-- Witness of C7 (amended): an NPC alone at `(160, 464)` drawing direction 1
proposes `(160, 480)` and stays where it is. -/
theorem move_rejects_destination_off_screen_witness :
    NPC.move [⟨160, 464⟩] 0 1 = [⟨160, 464⟩] :=
  (move_rejects_destination_off_screen [⟨160, 464⟩] 0 ⟨160, 464⟩ 1 rfl (by decide)).1
    (by decide)

/-- C10: the NPCs of the constructed game stand at `(160,120)`, `(176,136)`,
`(192,152)`, `(208,168)`; every step any of them can propose lies within the
hitbox radius of another one, so `canMove` rejects it, and in every reachable
state the NPCs are still at their initial positions. -/
theorem npcs_permanently_blocked :
    Game.init.npcs = [⟨160, 120⟩, ⟨176, 136⟩, ⟨192, 152⟩, ⟨208, 168⟩] ∧
    (∀ i r n, Game.init.npcs[i]? = some n →
      (∃ j o, j ≠ i ∧ Game.init.npcs[j]? = some o ∧
        NPC.isCollision (NPC.proposed n r).1 (NPC.proposed n r).2 o.x o.y = true) ∧
      NPC.canMove Game.init.npcs i (NPC.proposed n r).1 (NPC.proposed n r).2 = false) ∧
    (∀ g, Reachable g → g.npcs = Game.init.npcs) := by
  refine ⟨init_npcs_eq, ?_, reachable_npcs_fixed⟩
  intro i r n hi
  rw [proposed_mod]
  have hr : r % 4 < 4 := Nat.mod_lt _ (by decide)
  generalize r % 4 = d at hr
  have hi4 : i < 4 := by
    by_contra hlt
    have hlen : Game.init.npcs.length ≤ i := by
      rw [init_npcs_eq]; simp only [List.length_cons, List.length_nil]; omega
    rw [List.getElem?_eq_none hlen] at hi
    exact Option.noConfusion hi
  have key : ∀ i < 4, ∀ d < 4, ∀ n, Game.init.npcs[i]? = some n →
      (∃ j, j < 4 ∧ ∃ o, j ≠ i ∧ Game.init.npcs[j]? = some o ∧
        NPC.isCollision (NPC.proposed n d).1 (NPC.proposed n d).2 o.x o.y = true) ∧
      NPC.canMove Game.init.npcs i (NPC.proposed n d).1 (NPC.proposed n d).2 = false := by
    intro i hi d hd n hn
    interval_cases i <;> interval_cases d <;>
      (simp only [init_npcs_eq, List.getElem?_cons_zero, List.getElem?_cons_succ,
        Option.some.injEq] at hn
       subst hn
       refine ⟨?_, by decide⟩
       first
         | exact ⟨1, by decide, _, by decide, rfl, by decide⟩
         | exact ⟨2, by decide, _, by decide, rfl, by decide⟩)
  obtain ⟨⟨j, _, o, h⟩, hcm⟩ := key i hi4 d hr n hi
  exact ⟨⟨j, o, h⟩, hcm⟩

/-- Witness of C10: after a tick in which every NPC draws direction 3 the
NPCs are where the constructor put them. -/
theorem npcs_permanently_blocked_witness :
    (updateGame (fun _ => 3) Game.init).npcs = Game.init.npcs :=
  npcs_permanently_blocked.2.2 _ (Reachable.tick _ _ Reachable.init)

end Grid

namespace Cont

theorem stayInBounds_eq_clamp (x y : ℚ) : stayInBounds x y = clamp x y := by
  have w1 : wrapInt (SCREEN_WIDTH - ENTITY_SIZE) = 608 := by decide
  have w2 : wrapInt (SCREEN_HEIGHT - ENTITY_SIZE) = 448 := by decide
  simp only [stayInBounds, clamp, w1, w2, Prod.mk.injEq]
  constructor
  · by_cases h0 : x < 0
    · rw [if_pos h0, max_eq_right h0.le, if_neg (by norm_num), min_eq_left (by norm_num)]
    · rw [if_neg h0, max_eq_left (not_lt.mp h0)]
      by_cases h1 : x > ((608 : Int) : ℚ)
      · rw [if_pos h1, min_eq_right (by push_cast at h1; linarith)]
        norm_num
      · rw [if_neg h1, min_eq_left (by push_cast at h1; linarith)]
  · by_cases h0 : y < 0
    · rw [if_pos h0, max_eq_right h0.le, if_neg (by norm_num), min_eq_left (by norm_num)]
    · rw [if_neg h0, max_eq_left (not_lt.mp h0)]
      by_cases h1 : y > ((448 : Int) : ℚ)
      · rw [if_pos h1, min_eq_right (by push_cast at h1; linarith)]
        norm_num
      · rw [if_neg h1, min_eq_left (by push_cast at h1; linarith)]

theorem clamp_bounds (x y : ℚ) :
    0 ≤ (clamp x y).1 ∧ (clamp x y).1 ≤ 608 ∧ 0 ≤ (clamp x y).2 ∧ (clamp x y).2 ≤ 448 := by
  simp only [clamp]
  refine ⟨le_min (le_max_right _ _) (by norm_num), (min_le_right _ _).trans (by norm_num),
    le_min (le_max_right _ _) (by norm_num), (min_le_right _ _).trans (by norm_num)⟩

theorem clamp_of_inRange (x y : ℚ) (hx : 0 ≤ x ∧ x ≤ 608) (hy : 0 ≤ y ∧ y ≤ 448) :
    clamp x y = (x, y) := by
  simp only [clamp, Prod.mk.injEq]
  constructor
  · rw [max_eq_left hx.1, min_eq_left (by linarith [hx.2])]
  · rw [max_eq_left hy.1, min_eq_left (by linarith [hy.2])]

/-- C2: `Player::move` and `NPC::move` of the continuous variant leave the
entity at `clamp` of the position reached by the speed deltas, with
`clamp(x, y) = (min(max(x,0), 640-32), min(max(y,0), 480-32))`; the result
satisfies `0 <= x <= 608` and `0 <= y <= 448`, and a post-delta position
already in that range is the result. -/
theorem move_eq_clamp_of_deltas :
    (∀ (k : Keys) (p : Entity),
      ((Player.move k p).x, (Player.move k p).y)
          = clamp (Player.deltas k p).x (Player.deltas k p).y ∧
        (0 ≤ (Player.move k p).x ∧ (Player.move k p).x ≤ 608 ∧
          0 ≤ (Player.move k p).y ∧ (Player.move k p).y ≤ 448) ∧
        (0 ≤ (Player.deltas k p).x ∧ (Player.deltas k p).x ≤ 608 ∧
            0 ≤ (Player.deltas k p).y ∧ (Player.deltas k p).y ≤ 448 →
          Player.move k p = Player.deltas k p)) ∧
    (∀ (r1 r2 : Nat) (n : NPC),
      ((NPC.move r1 r2 n).x, (NPC.move r1 r2 n).y)
          = clamp (NPC.deltas (NPC.redraw r1 r2 n)).x (NPC.deltas (NPC.redraw r1 r2 n)).y ∧
        (0 ≤ (NPC.move r1 r2 n).x ∧ (NPC.move r1 r2 n).x ≤ 608 ∧
          0 ≤ (NPC.move r1 r2 n).y ∧ (NPC.move r1 r2 n).y ≤ 448) ∧
        (0 ≤ (NPC.deltas (NPC.redraw r1 r2 n)).x ∧ (NPC.deltas (NPC.redraw r1 r2 n)).x ≤ 608 ∧
            0 ≤ (NPC.deltas (NPC.redraw r1 r2 n)).y ∧
            (NPC.deltas (NPC.redraw r1 r2 n)).y ≤ 448 →
          NPC.move r1 r2 n = NPC.deltas (NPC.redraw r1 r2 n))) := by
  constructor
  · intro k p
    have hm : ((Player.move k p).x, (Player.move k p).y)
        = clamp (Player.deltas k p).x (Player.deltas k p).y := by
      simp only [Player.move, stayInBounds_eq_clamp]
    refine ⟨hm, ?_, ?_⟩
    · have hb := clamp_bounds (Player.deltas k p).x (Player.deltas k p).y
      rw [← hm] at hb
      exact hb
    · intro h
      have hc := clamp_of_inRange _ _ ⟨h.1, h.2.1⟩ ⟨h.2.2.1, h.2.2.2⟩
      simp only [Player.move, stayInBounds_eq_clamp, hc]
  · intro r1 r2 n
    have hm : ((NPC.move r1 r2 n).x, (NPC.move r1 r2 n).y)
        = clamp (NPC.deltas (NPC.redraw r1 r2 n)).x (NPC.deltas (NPC.redraw r1 r2 n)).y := by
      simp only [NPC.move, stayInBounds_eq_clamp]
    refine ⟨hm, ?_, ?_⟩
    · have hb := clamp_bounds (NPC.deltas (NPC.redraw r1 r2 n)).x
        (NPC.deltas (NPC.redraw r1 r2 n)).y
      rw [← hm] at hb
      exact hb
    · intro h
      have hc := clamp_of_inRange _ _ ⟨h.1, h.2.1⟩ ⟨h.2.2.1, h.2.2.2⟩
      simp only [NPC.move, stayInBounds_eq_clamp, hc]

/-- Witness of C2: the player at the world centre holding the right key ends
one speed step to the right, unclamped. -/
theorem move_eq_clamp_of_deltas_witness :
    Player.move ⟨false, false, false, true⟩ ⟨320, 240⟩
      = Player.deltas ⟨false, false, false, true⟩ ⟨320, 240⟩ :=
  (move_eq_clamp_of_deltas.1 ⟨false, false, false, true⟩ ⟨320, 240⟩).2.2
    (by norm_num [Player.deltas, PLAYER_SPEED])

theorem move_of_pos_steps (r1 r2 : Nat) (m : NPC) (hpos : 0 < m.steps)
    (hint : m.steps < 2147483648) :
    (NPC.move r1 r2 m).direction = m.direction ∧ (NPC.move r1 r2 m).steps = m.steps - 1 := by
  have hre : NPC.redraw r1 r2 m = m := by
    unfold NPC.redraw
    rw [if_neg (by omega)]
  simp only [NPC.move, hre, NPC.deltas]
  exact ⟨trivial, wrapInt_eq_self _ (by omega) (by omega)⟩

/-- C8: from a wander state with `steps = n > 0`, each of the next `n` calls of
`NPC::move` keeps `direction` and lowers `steps` by one (after `k <= n` calls
`steps = n - k`), whatever `rand()` would return; a call that starts with
`steps > 0` re-draws nothing, and a call that starts with `steps <= 0` sets
`direction` in `{0,1,2,3}` and `steps` in `[100, 1099]` before the decrement. -/
theorem wander_commitment (n : NPC) (draws : Nat → Nat × Nat) (k : Nat)
    (hpos : 0 < n.steps) (hint : n.steps < 2147483648) (hk : (k : Int) ≤ n.steps) :
    ((NPC.moveN draws k n).direction = n.direction ∧
      (NPC.moveN draws k n).steps = n.steps - k) ∧
    (∀ (m : NPC) (r1 r2 : Nat), 0 < m.steps → NPC.redraw r1 r2 m = m) ∧
    (∀ (m : NPC) (r1 r2 : Nat), m.steps ≤ 0 →
      (0 ≤ (NPC.redraw r1 r2 m).direction ∧ (NPC.redraw r1 r2 m).direction ≤ 3) ∧
      (100 ≤ (NPC.redraw r1 r2 m).steps ∧ (NPC.redraw r1 r2 m).steps ≤ 1099) ∧
      (NPC.move r1 r2 m).direction = (NPC.redraw r1 r2 m).direction ∧
      (NPC.move r1 r2 m).steps = (NPC.redraw r1 r2 m).steps - 1) := by
  refine ⟨?_, ?_, ?_⟩
  · induction k with
    | zero => simp [NPC.moveN]
    | succ k ih =>
      have hk1 : (k : Int) + 1 ≤ n.steps := by exact_mod_cast hk
      obtain ⟨hd, hs⟩ := ih (by omega)
      have hstep := move_of_pos_steps (draws k).1 (draws k).2 (NPC.moveN draws k n)
        (by omega) (by omega)
      simp only [NPC.moveN]
      refine ⟨hstep.1.trans hd, ?_⟩
      rw [hstep.2, hs]
      push_cast
      ring
  · intro m r1 r2 hm
    unfold NPC.redraw
    rw [if_neg (by omega)]
  · intro m r1 r2 hm
    have h4 : r1 % 4 < 4 := Nat.mod_lt _ (by decide)
    have h1000 : r2 % 1000 < 1000 := Nat.mod_lt _ (by decide)
    have hw : wrapInt (((r2 % 1000 : Nat) : Int) + 100) = ((r2 % 1000 : Nat) : Int) + 100 :=
      wrapInt_eq_self _ (by omega) (by omega)
    have hre : NPC.redraw r1 r2 m
        = { m with direction := ((r1 % 4 : Nat) : Int),
                   steps := ((r2 % 1000 : Nat) : Int) + 100 } := by
      unfold NPC.redraw
      rw [if_pos hm, hw]
    rw [hre]
    refine ⟨⟨by simp only; omega, by simp only; omega⟩,
      ⟨by simp only; omega, by simp only; omega⟩, ?_, ?_⟩
    · simp only [NPC.move, hw, NPC.redraw, if_pos hm, NPC.deltas]
    · simp only [NPC.move, hw, NPC.redraw, if_pos hm, NPC.deltas]
      exact wrapInt_eq_self _ (by omega) (by omega)

/-- Witness of C8: an NPC heading right with 3 steps left, after 3 calls. -/
theorem wander_commitment_witness :
    (NPC.moveN (fun _ => (0, 0)) 3 ⟨100, 100, 3, 3⟩).direction = 3 ∧
      (NPC.moveN (fun _ => (0, 0)) 3 ⟨100, 100, 3, 3⟩).steps = 3 - (3 : Nat) :=
  (wander_commitment ⟨100, 100, 3, 3⟩ (fun _ => (0, 0)) 3 (by decide) (by decide)
    (by decide)).1

theorem toInt_eq_floor (q : ℚ) (h : 0 ≤ q) : toInt q = ⌊q⌋ := by
  unfold toInt
  rw [Rat.floor_def]
  exact Int.tdiv_eq_ediv (Rat.num_nonneg.mpr h) (Int.natCast_nonneg _)

theorem toInt_bounds (q : ℚ) (b : Int) (h0 : 0 ≤ q) (hb : q ≤ (b : ℚ)) :
    0 ≤ toInt q ∧ toInt q ≤ b := by
  rw [toInt_eq_floor q h0]
  refine ⟨Int.floor_nonneg.mpr h0, ?_⟩
  have h1 : ((⌊q⌋ : Int) : ℚ) ≤ (b : ℚ) := (Int.floor_le q).trans hb
  exact_mod_cast h1

theorem isCollision_iff_of_small (x1 y1 x2 y2 : Int)
    (hx1 : 0 ≤ x1 ∧ x1 ≤ 640) (hy1 : 0 ≤ y1 ∧ y1 ≤ 480)
    (hx2 : 0 ≤ x2 ∧ x2 ≤ 640) (hy2 : 0 ≤ y2 ∧ y2 ≤ 480) :
    NPC.isCollision x1 y1 x2 y2 = true ↔
      x1 < x2 + 32 ∧ x1 + 32 > x2 ∧ y1 < y2 + 32 ∧ y1 + 32 > y2 := by
  simp only [NPC.isCollision, ENTITY_SIZE, Bool.and_eq_true, decide_eq_true_eq]
  rw [wrapInt_eq_self (x2 + 32) (by omega) (by omega),
    wrapInt_eq_self (x1 + 32) (by omega) (by omega),
    wrapInt_eq_self (y2 + 32) (by omega) (by omega),
    wrapInt_eq_self (y1 + 32) (by omega) (by omega)]
  tauto

theorem lt_add_of_toInt_lt_add (a b : ℚ) (ha : 0 ≤ a) (hb : 0 ≤ b)
    (h : toInt a < toInt b + 32) : a < b + 32 := by
  rw [toInt_eq_floor a ha, toInt_eq_floor b hb] at h
  have h1 : ⌊a⌋ + 1 ≤ ⌊b⌋ + 32 := by omega
  have h2 : ((⌊a⌋ + 1 : Int) : ℚ) ≤ ((⌊b⌋ + 32 : Int) : ℚ) := by exact_mod_cast h1
  push_cast at h2
  have h3 := Int.lt_floor_add_one a
  have h4 := Int.floor_le b
  linarith

/-- C4 (refuted as stated): the player at `(1/2, 0)` and an NPC at `(161/5, 0)`
are inside the world and satisfy all four strict inequalities, but the check
of the game loop, which sees the `int` positions `(0, 0)` and `(32, 0)`,
reports no collision. -/
theorem collisionCheck_misses_fractional_overlap :
    ((0 : ℚ) ≤ 1 / 2 ∧ (1 / 2 : ℚ) ≤ 608 ∧ (0 : ℚ) ≤ 161 / 5 ∧ (161 / 5 : ℚ) ≤ 608) ∧
    ¬ (collisionCheck ⟨1 / 2, 0⟩ ⟨161 / 5, 0, 0, 0⟩ = true ↔
      ((1 / 2 : ℚ) < 161 / 5 + 32 ∧ (1 / 2 : ℚ) + 32 > 161 / 5 ∧
        (0 : ℚ) < 0 + 32 ∧ (0 : ℚ) + 32 > 0)) := by
  have hc : collisionCheck ⟨1 / 2, 0⟩ ⟨161 / 5, 0, 0, 0⟩ = false := by
    have h1 : toInt (1 / 2) = 0 := by
      rw [toInt_eq_floor _ (by norm_num), Int.floor_eq_iff]; norm_num
    have h2 : toInt (161 / 5) = 32 := by
      rw [toInt_eq_floor _ (by norm_num), Int.floor_eq_iff]; norm_num
    have h3 : toInt 0 = 0 := by
      rw [toInt_eq_floor _ (by norm_num), Int.floor_eq_iff]; norm_num
    simp only [collisionCheck, h1, h2, h3]
    decide
  refine ⟨by norm_num, ?_⟩
  rw [hc]
  intro h
  have := h.mpr (by norm_num)
  exact Bool.noConfusion this

/-- C4 (amended): for a player and an NPC inside the world, the check of the
game loop reports a collision exactly when the four strict inequalities hold
of the positions converted to `int` (fractional parts discarded); a reported
collision implies the four inequalities of the positions themselves. -/
theorem collisionCheck_iff_truncated_overlap (A : Entity) (B : NPC)
    (hA : 0 ≤ A.x ∧ A.x ≤ 640 ∧ 0 ≤ A.y ∧ A.y ≤ 480)
    (hB : 0 ≤ B.x ∧ B.x ≤ 640 ∧ 0 ≤ B.y ∧ B.y ≤ 480) :
    (collisionCheck A B = true ↔
      toInt A.x < toInt B.x + 32 ∧ toInt A.x + 32 > toInt B.x ∧
        toInt A.y < toInt B.y + 32 ∧ toInt A.y + 32 > toInt B.y) ∧
    (collisionCheck A B = true →
      A.x < B.x + 32 ∧ A.x + 32 > B.x ∧ A.y < B.y + 32 ∧ A.y + 32 > B.y) := by
  obtain ⟨a1, a2, a3, a4⟩ := hA
  obtain ⟨b1, b2, b3, b4⟩ := hB
  have hiff : collisionCheck A B = true ↔
      toInt A.x < toInt B.x + 32 ∧ toInt A.x + 32 > toInt B.x ∧
        toInt A.y < toInt B.y + 32 ∧ toInt A.y + 32 > toInt B.y :=
    isCollision_iff_of_small _ _ _ _
      (toInt_bounds A.x 640 a1 (by exact_mod_cast a2))
      (toInt_bounds A.y 480 a3 (by exact_mod_cast a4))
      (toInt_bounds B.x 640 b1 (by exact_mod_cast b2))
      (toInt_bounds B.y 480 b3 (by exact_mod_cast b4))
  refine ⟨hiff, ?_⟩
  intro h
  obtain ⟨h1, h2, h3, h4⟩ := hiff.mp h
  exact ⟨lt_add_of_toInt_lt_add _ _ a1 b1 h1, lt_add_of_toInt_lt_add _ _ b1 a1 (by omega),
    lt_add_of_toInt_lt_add _ _ a3 b3 h3, lt_add_of_toInt_lt_add _ _ b3 a3 (by omega)⟩

/-- Witness of C4 (amended): the player at `(1/2, 0)` and an NPC at `(31, 0)`
collide, as their `int` positions `(0, 0)` and `(31, 0)` overlap. -/
theorem collisionCheck_iff_truncated_overlap_witness :
    collisionCheck ⟨1 / 2, 0⟩ ⟨31, 0, 0, 0⟩ = true ↔
      toInt (1 / 2) < toInt 31 + 32 ∧ toInt (1 / 2) + 32 > toInt 31 ∧
        toInt 0 < toInt 0 + 32 ∧ toInt 0 + 32 > toInt 0 :=
  (collisionCheck_iff_truncated_overlap ⟨1 / 2, 0⟩ ⟨31, 0, 0, 0⟩
    (by norm_num) (by norm_num)).1

end Cont

/-! The quit event. -/

namespace Grid

theorem drain_npcs (es : List SDL_Event) : ∀ g : Game, (drain g es).npcs = g.npcs := by
  induction es with
  | nil => intro g; rfl
  | cons e es ih =>
    intro g
    simp only [drain]
    rw [ih]
    split <;> rfl

theorem drain_stopped (es : List SDL_Event) :
    ∀ g : Game, g.gameRunning = false → (drain g es).gameRunning = false := by
  induction es with
  | nil => intro g h; exact h
  | cons e es ih =>
    intro g h
    simp only [drain]
    apply ih
    split
    · rfl
    · exact h

theorem drain_player_of_no_keydown (es : List SDL_Event) :
    ∀ g : Game, (∀ e ∈ es, e.type ≠ SDL_KEYDOWN) → (drain g es).player = g.player := by
  induction es with
  | nil => intro g _; rfl
  | cons e es ih =>
    intro g h
    simp only [drain]
    rw [ih _ (fun e he => h e (List.mem_cons_of_mem _ he))]
    split
    · rfl
    · have hk : e.type ≠ SDL_KEYDOWN := h e (List.mem_cons_self _ _)
      simp only [Player.handleInput, if_neg hk]

theorem updateGame_stopped (draws : Nat → Nat) (g : Game) (h : g.gameRunning = false) :
    (updateGame draws g).gameRunning = false := by
  simp only [updateGame, h, ite_self]

theorem run_of_stopped (fuel : Nat) (frames : Nat → Frame) (g : Game)
    (h : g.gameRunning = false) : run fuel frames g = some g := by
  cases fuel <;> simp [run, h]

end Grid

namespace Cont

theorem drain_fields (es : List SDL_Event) :
    ∀ g : Game, (drain g es).player = g.player ∧ (drain g es).npcs = g.npcs := by
  induction es with
  | nil => intro g; exact ⟨rfl, rfl⟩
  | cons e es ih =>
    intro g
    simp only [drain]
    refine ⟨(ih _).1.trans ?_, (ih _).2.trans ?_⟩ <;> split <;> rfl

theorem drain_keeps_stopped (es : List SDL_Event) :
    ∀ g : Game, g.gameRunning = false → (drain g es).gameRunning = false := by
  induction es with
  | nil => intro g h; exact h
  | cons e es ih =>
    intro g h
    simp only [drain]
    apply ih
    split
    · rfl
    · exact h

theorem run_returns_stopped (fuel : Nat) (frames : Nat → Frame) (g : Game)
    (h : g.gameRunning = false) : run fuel frames g = some g := by
  cases fuel <;> simp [run, h]

end Cont

/-- C9 (refuted as stated): with a quit event drained first in the first
iteration the loop ends, but not with the initial positions.  Grid variant: a
key-down of D pending behind the quit is still handled and the player ends at
`(336, 240)` instead of `(320, 240)`.  Continuous variant: the iteration still
calls every `move()`, and NPCs constructed at `(100, 100)` end at
`(100, 999/10)`. -/
theorem quit_first_positions_differ :
    (Grid.Game.init.player = ⟨320, 240⟩ ∧
      (Grid.run 1 (fun _ => ⟨[⟨SDL_QUIT, 0⟩, ⟨SDL_KEYDOWN, SDLK_d⟩], fun _ => 0⟩)
          Grid.Game.init).map (fun g => (g.gameRunning, g.player))
        = some (false, ⟨336, 240⟩)) ∧
    ((Cont.Game.init fun _ => 100).npcs.map (fun n => (n.x, n.y))
        = [(100, 100), (100, 100), (100, 100), (100, 100), (100, 100)] ∧
      (Cont.run 1 (fun _ => ⟨[⟨SDL_QUIT, 0⟩], ⟨false, false, false, false⟩, fun _ => (0, 0)⟩)
          (Cont.Game.init fun _ => 100)).map
          (fun g => (g.gameRunning, g.npcs.map fun n => (n.x, n.y)))
        = some (false, [(100, 999 / 10), (100, 999 / 10), (100, 999 / 10), (100, 999 / 10),
            (100, 999 / 10)])) := by
  refine ⟨by decide, ?_, ?_⟩
  · simp [Cont.Game.init, List.range_succ, Cont.SCREEN_WIDTH, Cont.SCREEN_HEIGHT, Int.tmod]
  · simp [Cont.run, Cont.Game.init, List.range_succ, Cont.SCREEN_WIDTH, Cont.SCREEN_HEIGHT,
      Int.tmod, Cont.iteration, Cont.drain, Cont.moveAll, List.mapIdx_cons, Cont.NPC.move,
      Cont.NPC.redraw, Cont.NPC.deltas, Cont.stayInBounds_eq_clamp, Cont.clamp, Cont.NPC_SPEED,
      wrapInt]
    norm_num

/-- C9 (amended): in both variants, from any state in which the loop is
entered, a quit event drained first in the first iteration ends the loop when
that iteration is complete (`gameRunning = false`, no second iteration).
Grid variant: the player is then where it started if no key-down event
follows the quit in that drain, and NPCs standing where the constructor put
them are still there.  Continuous variant: the player and every NPC have then
made exactly one `move()`. -/
theorem quit_first_ends_loop_after_iteration :
    (∀ (g : Grid.Game) (frames : Nat → Grid.Frame) (sym : Int) (rest : List SDL_Event)
        (fuel : Nat),
      g.gameRunning = true → (frames 0).events = ⟨SDL_QUIT, sym⟩ :: rest →
        Grid.run (fuel + 1) frames g = some (Grid.iteration (frames 0) g) ∧
        (Grid.iteration (frames 0) g).gameRunning = false ∧
        ((∀ e ∈ rest, e.type ≠ SDL_KEYDOWN) →
          (Grid.iteration (frames 0) g).player = g.player) ∧
        (g.npcs = Grid.Game.init.npcs → (Grid.iteration (frames 0) g).npcs = g.npcs)) ∧
    (∀ (g : Cont.Game) (frames : Nat → Cont.Frame) (sym : Int) (rest : List SDL_Event)
        (fuel : Nat),
      g.gameRunning = true → (frames 0).events = ⟨SDL_QUIT, sym⟩ :: rest →
        Cont.run (fuel + 1) frames g = some (Cont.iteration (frames 0) g) ∧
        (Cont.iteration (frames 0) g).gameRunning = false ∧
        (Cont.iteration (frames 0) g).player = Cont.Player.move (frames 0).keys g.player ∧
        (Cont.iteration (frames 0) g).npcs = Cont.moveAll (frames 0).draws g.npcs) := by
  constructor
  · intro g frames sym rest fuel hrun hev
    have hd : (Grid.drain g (frames 0).events).gameRunning = false := by
      rw [hev]
      simp only [Grid.drain, if_true]
      exact Grid.drain_stopped rest _ rfl
    have hstop : (Grid.iteration (frames 0) g).gameRunning = false :=
      Grid.updateGame_stopped _ _ hd
    refine ⟨?_, hstop, ?_, ?_⟩
    · simp only [Grid.run, hrun, if_true]
      exact Grid.run_of_stopped _ _ _ hstop
    · intro hno
      have hp : (Grid.drain g (frames 0).events).player = g.player := by
        rw [hev]
        simp only [Grid.drain, if_true]
        exact Grid.drain_player_of_no_keydown rest _ hno
      exact hp
    · intro hn
      have h1 : (Grid.drain g (frames 0).events).npcs = Grid.Game.init.npcs :=
        (Grid.drain_npcs _ g).trans hn
      rw [hn]
      exact Grid.updateGame_npcs_fixed _ _ h1
  · intro g frames sym rest fuel hrun hev
    have hd : (Cont.drain g (frames 0).events).gameRunning = false := by
      rw [hev]
      simp only [Cont.drain, if_true]
      exact Cont.drain_keeps_stopped rest _ rfl
    have hstop : (Cont.iteration (frames 0) g).gameRunning = false := by
      simp only [Cont.iteration, hd, ite_self]
    refine ⟨?_, hstop, ?_, ?_⟩
    · simp only [Cont.run, hrun, if_true]
      exact Cont.run_returns_stopped _ _ _ hstop
    · simp only [Cont.iteration, (Cont.drain_fields _ g).1]
    · simp only [Cont.iteration, (Cont.drain_fields _ g).2]

/-- Witness of C9 (amended): the constructed grid game with only a quit event
pending ends after its first iteration. -/
theorem quit_first_ends_loop_after_iteration_witness :
    Grid.run 1 (fun _ => ⟨[⟨SDL_QUIT, 0⟩], fun _ => 0⟩) Grid.Game.init
        = some (Grid.iteration ⟨[⟨SDL_QUIT, 0⟩], fun _ => 0⟩ Grid.Game.init) ∧
      (Grid.iteration ⟨[⟨SDL_QUIT, 0⟩], fun _ => 0⟩ Grid.Game.init).gameRunning = false :=
  ⟨(quit_first_ends_loop_after_iteration.1 Grid.Game.init
      (fun _ => ⟨[⟨SDL_QUIT, 0⟩], fun _ => 0⟩) 0 [] 0 rfl rfl).1,
    (quit_first_ends_loop_after_iteration.1 Grid.Game.init
      (fun _ => ⟨[⟨SDL_QUIT, 0⟩], fun _ => 0⟩) 0 [] 0 rfl rfl).2.1⟩
